import Mathlib

/-!
Shallow embedding of the TP/SL/Trailing-Stop outcome simulator
(`src/utils/utils_tp_sl_simulation.py`, function `run_simulation`).

Modelling conventions:
* a bar timestamp `t` is a natural number of minutes since an epoch;
  the calendar date of a bar is `t / 1440` and its time-of-day is
  `t % 1440` (so the 09:40 market-open cutoff is minute 580);
* prices are rationals (the Python code uses floats only through
  order comparisons and the four arithmetic operations; no claim
  depends on rounding).  Rational division is total with `x / 0 = 0`;
  the only division in the code is the `returns_percentage` field,
  which no claim constrains;
* the external data fetch (`get_ohlc_data`) is an external collaborator:
  its result is passed in as an `Option (List Bar)` argument (`none`
  models the provider returning `None`); `ticker` and `calendar_days`
  only parameterise that fetch and so do not appear;
* `sort_values('t')` is modelled by a stable insertion sort on `t`; for
  duplicate timestamps pandas leaves the order unspecified, and no claim
  depends on the order of equal keys;
* the `target_days[0]` subscript in the source raises `IndexError` when
  `trading_days_limit` truncates the day list to nothing; the
  surrounding `try/except` turns that into the error string
  `"Logic error: list index out of range"`.  The embedding tests the
  emptiness of the day list up front and returns the same error; the
  intervening operations are pure, so the behaviour is identical.
-/

namespace TpSl

/-- One OHLC bar of the source time series (a row of the fetched
dataframe): timestamp in minutes, and the four price columns used by
the simulator.  The unused `volume` column is omitted. -/
structure Bar where
  t : Nat
  openPrice : ℚ
  high : ℚ
  low : ℚ
  close : ℚ
  deriving DecidableEq, Repr, Inhabited

/-- Calendar date of a timestamp (`pd.to_datetime(t).dt.date`). -/
def dateOnly (t : Nat) : Nat := t / 1440

/-- Time-of-day of a timestamp, in minutes since midnight. -/
def timeOfDay (t : Nat) : Nat := t % 1440

/-- Minute index of 09:40, the end of the opening exclusion window. -/
def marketOpenCutoff : Nat := 580

/-- One entry `(tp_mult, sl_mult, start_seq, end_seq)` of `tp_sl_list`. -/
structure ExitRule where
  tp_mult : ℚ
  sl_mult : ℚ
  start_seq : Nat
  end_seq : Nat
  deriving DecidableEq, Repr

/-- A bar together with the three derived indices assigned in step 3 of
the source (`trading_timestamp_sequence`, `trading_day_sequence`,
`trading_interval_sequence`). -/
structure SeqBar where
  bar : Bar
  trading_timestamp_sequence : Nat
  trading_day_sequence : Nat
  trading_interval_sequence : Nat
  deriving DecidableEq, Repr, Inhabited

/-- The trigger kind reported in a successful outcome. -/
inductive Trigger
  | takeProfit
  | stopLoss
  | trailingStop
  | endOfHolding
  deriving DecidableEq, Repr

/-- The success payload of the returned dictionary. -/
structure Outcome where
  buy_price : ℚ
  sell_price : ℚ
  returns_percentage : ℚ
  buy_timestamp : Nat
  sell_timestamp : Nat
  trading_timestamp_sequence : Nat
  trading_day_sequence : Nat
  trading_interval_sequence : Nat
  trigger : Trigger
  deriving DecidableEq, Repr

/-- Result of `run_simulation`: either an error-tagged dictionary
(`{"error": msg}`) or a full outcome with `error = None`. -/
inductive SimResult
  | err (msg : String)
  | ok (o : Outcome)
  deriving DecidableEq, Repr

/-- `df_ohlc.sort_values('t')` (line 30). -/
def sortBars (l : List Bar) : List Bar :=
  l.insertionSort (fun a b => a.t ≤ b.t)

/-- Lines 28–30: keep bars strictly after the pick date, then sort by
timestamp. -/
def pickFiltered (bars : List Bar) (pick_date : Nat) : List Bar :=
  sortBars (bars.filter (fun b => decide (pick_date < dateOnly b.t)))

/-- Line 38: `sorted(df_ohlc['date_only'].unique())`. -/
def uniqueDays (df : List Bar) : List Nat :=
  ((df.map (fun b => dateOnly b.t)).dedup).insertionSort (· ≤ ·)

/-- Line 39: `unique_days[:trading_days_limit]`. -/
def targetDays (df : List Bar) (limit : Nat) : List Nat :=
  (uniqueDays df).take limit

/-- Line 40: `df_ohlc[df_ohlc['date_only'].isin(target_days)]`. -/
def dayFiltered (df : List Bar) (td : List Nat) : List Bar :=
  df.filter (fun b => decide (dateOnly b.t ∈ td))

/-- Lines 43–46: drop bars of the first retained day whose time-of-day
is before 09:40. -/
def morningFiltered (df : List Bar) (first_day : Nat) : List Bar :=
  df.filter (fun b =>
    !(decide (dateOnly b.t = first_day) && decide (timeOfDay b.t < marketOpenCutoff)))

/-- First retained trading day, `target_days[0]` (line 43). -/
def firstDayOf (df0 : List Bar) (pick_date limit : Nat) : Nat :=
  (targetDays (pickFiltered df0 pick_date) limit).headD 0

/-- The tradable path: the fetched bars after pick-date exclusion,
sorting, day-window truncation and the opening-minutes exclusion
(the dataframe `df` of lines 40–46). -/
def tradablePath (df0 : List Bar) (pick_date limit : Nat) : List Bar :=
  let df_ohlc := pickFiltered df0 pick_date
  let td := targetDays df_ohlc limit
  morningFiltered (dayFiltered df_ohlc td) (td.headD 0)

/-- Step 3 of the source (lines 52–54): attach the three sequence
indices to each bar of `df`.  `trading_timestamp_sequence` is the
position in `df`, `trading_day_sequence` the index of the bar's date in
`target_days`, and `trading_interval_sequence` the number of earlier
bars of `df` sharing the bar's date (`groupby('date_only').cumcount()`). -/
def sequenceBars (df : List Bar) (td : List Nat) : List SeqBar :=
  df.enum.map (fun p =>
    { bar := p.2
      trading_timestamp_sequence := p.1
      trading_day_sequence := List.indexOf (dateOnly p.2.t) td
      trading_interval_sequence :=
        (df.take p.1).countP (fun b => decide (dateOnly b.t = dateOnly p.2.t)) })

/-- The fully sequenced tradable path used by the resolver. -/
def sequencedPath (df0 : List Bar) (pick_date limit : Nat) : List SeqBar :=
  sequenceBars (tradablePath df0 pick_date limit)
    (targetDays (pickFiltered df0 pick_date) limit)

/-- `df.iloc[0]` of the sequenced path (lines 57–59): the entry bar. -/
def buyBar (df0 : List Bar) (pick_date limit : Nat) : Bar :=
  (tradablePath df0 pick_date limit).headD default

/-- Lines 68–70: the bar is flagged `is_tp_breached` when some rule of
`tp_sl_list` covers its day index and its high reaches the take-profit
threshold. -/
def is_tp_breached (rules : List ExitRule) (buy_price : ℚ) (sb : SeqBar) : Bool :=
  rules.any (fun r =>
    decide (r.start_seq ≤ sb.trading_day_sequence) &&
    decide (sb.trading_day_sequence ≤ r.end_seq) &&
    decide (buy_price * r.tp_mult ≤ sb.bar.high))

/-- Lines 68–71: the analogous stop-loss flag. -/
def is_sl_breached (rules : List ExitRule) (buy_price : ℚ) (sb : SeqBar) : Bool :=
  rules.any (fun r =>
    decide (r.start_seq ≤ sb.trading_day_sequence) &&
    decide (sb.trading_day_sequence ≤ r.end_seq) &&
    decide (sb.bar.low ≤ buy_price * r.sl_mult))

/-- Lines 76–79: the running-maximum update of one loop step.  The first
row (`trading_timestamp_sequence == 0`) overwrites the accumulator, all
later rows take the maximum with the bar's high. -/
def tsStep (maxima : ℚ) (sb : SeqBar) : ℚ :=
  if sb.trading_timestamp_sequence = 0 then sb.bar.high else max maxima sb.bar.high

/-- Lines 74–86: the trailing-stop scan.  Starting from accumulator
`maxima`, visit the bars in order; at each bar update the accumulator,
compute the trigger-sell price `maxima * (1 - ts_pct)`, and stop at the
first bar whose low is at or below it, returning that bar and the
trigger-sell price. -/
def tsScan (ts_pct : ℚ) (maxima : ℚ) : List SeqBar → Option (SeqBar × ℚ)
  | [] => none
  | sb :: rest =>
    if sb.bar.low ≤ tsStep maxima sb * (1 - ts_pct) then
      some (sb, tsStep maxima sb * (1 - ts_pct))
    else tsScan ts_pct (tsStep maxima sb) rest

/-- Value of the scan accumulator of `tsScan` after processing the
first `k` bars of the list, starting from `m` (the source initialises
`maxima = 0`). -/
def accFrom (m : ℚ) (l : List SeqBar) (k : Nat) : ℚ :=
  (l.take k).foldl tsStep m

/-- Extended sequence numbers: `some n` is the sequence number `n`,
`none` models Python's `float('inf')` ("no breach"). -/
def seqMin : Option Nat → Option Nat → Option Nat
  | some a, some b => some (min a b)
  | some a, none => some a
  | none, b => b

/-- Ordering on extended sequence numbers, `none` being `+∞`. -/
def seqLE : Option Nat → Option Nat → Prop
  | none, none => True
  | none, some _ => False
  | some _, none => True
  | some a, some b => a ≤ b

/-- Strict ordering on extended sequence numbers, `none` being `+∞`. -/
def seqLT : Option Nat → Option Nat → Prop
  | none, _ => False
  | some _, none => True
  | some a, some b => a < b

instance : (a b : Option Nat) → Decidable (seqLE a b)
  | none, none => .isTrue trivial
  | none, some _ => .isFalse id
  | some _, none => .isTrue trivial
  | some a, some b => inferInstanceAs (Decidable (a ≤ b))

instance : (a b : Option Nat) → Decidable (seqLT a b)
  | none, _ => .isFalse id
  | some _, none => .isTrue trivial
  | some a, some b => inferInstanceAs (Decidable (a < b))

/-- Minimum `trading_timestamp_sequence` of a list of bars, `none` (+∞)
when the list is empty — the `hits.min() if not hits.empty else
float('inf')` idiom of lines 92–93. -/
def earliestSeq (hits : List SeqBar) : Option Nat :=
  hits.foldr (fun sb acc => seqMin (some sb.trading_timestamp_sequence) acc) none

/-- Line 92: earliest take-profit breach sequence number. -/
def earliest_tp_of (sp : List SeqBar) (rules : List ExitRule) (buy_price : ℚ) : Option Nat :=
  earliestSeq (sp.filter (is_tp_breached rules buy_price))

/-- Line 93: earliest stop-loss breach sequence number. -/
def earliest_sl_of (sp : List SeqBar) (rules : List ExitRule) (buy_price : ℚ) : Option Nat :=
  earliestSeq (sp.filter (is_sl_breached rules buy_price))

/-- Line 94: the trailing-stop breach sequence number, `none` (+∞) when
the scan found no breach. -/
def earliest_ts_of (ts_pct : ℚ) (sp : List SeqBar) : Option Nat :=
  (tsScan ts_pct 0 sp).map (fun pr => pr.1.trading_timestamp_sequence)

/-- Line 97: `min(earliest_tp, earliest_sl, earliest_ts)`. -/
def first_event_of (sp : List SeqBar) (rules : List ExitRule) (buy_price ts_pct : ℚ) :
    Option Nat :=
  seqMin (earliest_tp_of sp rules buy_price)
    (seqMin (earliest_sl_of sp rules buy_price) (earliest_ts_of ts_pct sp))

/-- Lines 101–102: the end-of-holding exit bar — the first bar with
`trading_day_sequence == trading_days_limit - 1` and
`trading_interval_sequence == 0`, falling back to the path's last bar. -/
def eohExitRow (sp : List SeqBar) (limit : Nat) : SeqBar :=
  (sp.filter (fun sb =>
      decide (sb.trading_day_sequence = limit - 1) &&
      decide (sb.trading_interval_sequence = 0))).headD
    (sp.getLastD default)

/-- Lines 105 and 108: `df[df['trading_timestamp_sequence'] == e].iloc[0]`. -/
def rowAtSeq (sp : List SeqBar) (e : Option Nat) : SeqBar :=
  (sp.filter (fun sb => decide (some sb.trading_timestamp_sequence = e))).headD
    default

/-- The trailing-stop breach row and its trigger-sell price (defaulted;
only read on the branch where the scan did find a breach). -/
def tsExitOf (ts_pct : ℚ) (sp : List SeqBar) : SeqBar × ℚ :=
  (tsScan ts_pct 0 sp).getD (default, 0)

/-- Lines 114–122: assemble the returned dictionary. -/
def mkOutcome (buy_price : ℚ) (buy_timestamp : Nat) (sell_price : ℚ)
    (exit_row : SeqBar) (trigger : Trigger) : Outcome :=
  { buy_price := buy_price
    sell_price := sell_price
    returns_percentage := (sell_price / buy_price - 1) * 100
    buy_timestamp := buy_timestamp
    sell_timestamp := exit_row.bar.t
    trading_timestamp_sequence := exit_row.trading_timestamp_sequence
    trading_day_sequence := exit_row.trading_day_sequence
    trading_interval_sequence := exit_row.trading_interval_sequence
    trigger := trigger }

/-- Lines 96–122: the four-way event race.  Branch order mirrors the
source: end-of-holding when nothing breached, else take-profit, else
stop-loss, else trailing-stop. -/
def resolveOutcome (sp : List SeqBar) (buy_price : ℚ) (buy_timestamp : Nat)
    (rules : List ExitRule) (limit : Nat) (ts_pct : ℚ) : Outcome :=
  if first_event_of sp rules buy_price ts_pct = none then
    mkOutcome buy_price buy_timestamp (eohExitRow sp limit).bar.openPrice
      (eohExitRow sp limit) .endOfHolding
  else if first_event_of sp rules buy_price ts_pct = earliest_tp_of sp rules buy_price then
    mkOutcome buy_price buy_timestamp
      (rowAtSeq sp (earliest_tp_of sp rules buy_price)).bar.high
      (rowAtSeq sp (earliest_tp_of sp rules buy_price)) .takeProfit
  else if first_event_of sp rules buy_price ts_pct = earliest_sl_of sp rules buy_price then
    mkOutcome buy_price buy_timestamp
      (rowAtSeq sp (earliest_sl_of sp rules buy_price)).bar.low
      (rowAtSeq sp (earliest_sl_of sp rules buy_price)) .stopLoss
  else
    mkOutcome buy_price buy_timestamp (tsExitOf ts_pct sp).2 (tsExitOf ts_pct sp).1
      .trailingStop

/-- The simulator, `run_simulation`.  `df_ohlc?` stands for the result
of the `get_ohlc_data` call (`none` = the provider returned `None`). -/
def run_simulation (df_ohlc? : Option (List Bar)) (pick_date : Nat)
    (tp_sl_list : List ExitRule) (trading_days_limit : Nat) (ts_pct : ℚ) : SimResult :=
  match df_ohlc? with
  | none => .err "No OHLC data returned from Polygon"
  | some df0 =>
    if df0.isEmpty then .err "No OHLC data returned from Polygon"
    else if (pickFiltered df0 pick_date).isEmpty then
      .err "No data available after the pick date"
    else if (targetDays (pickFiltered df0 pick_date) trading_days_limit).isEmpty then
      .err "Logic error: list index out of range"
    else if (tradablePath df0 pick_date trading_days_limit).isEmpty then
      .err "Insufficient data after morning exclusion"
    else
      .ok (resolveOutcome (sequencedPath df0 pick_date trading_days_limit)
            (buyBar df0 pick_date trading_days_limit).openPrice
            (buyBar df0 pick_date trading_days_limit).t
            tp_sl_list trading_days_limit ts_pct)

/-! Basic structural lemmas about the path-preparation pipeline. -/

theorem mem_sortBars {b : Bar} {l : List Bar} : b ∈ sortBars l ↔ b ∈ l := by
  unfold sortBars
  exact (List.perm_insertionSort _ _).mem_iff

theorem mem_pickFiltered {b : Bar} {df0 : List Bar} {pick : Nat} :
    b ∈ pickFiltered df0 pick ↔ b ∈ df0 ∧ pick < dateOnly b.t := by
  unfold pickFiltered
  rw [mem_sortBars, List.mem_filter]
  simp

theorem mem_dayFiltered {b : Bar} {df : List Bar} {td : List Nat} :
    b ∈ dayFiltered df td ↔ b ∈ df ∧ dateOnly b.t ∈ td := by
  unfold dayFiltered
  rw [List.mem_filter]
  simp

theorem mem_morningFiltered {b : Bar} {df : List Bar} {fd : Nat} :
    b ∈ morningFiltered df fd ↔
      b ∈ df ∧ ¬(dateOnly b.t = fd ∧ timeOfDay b.t < marketOpenCutoff) := by
  unfold morningFiltered
  rw [List.mem_filter]
  simp [Decidable.not_and_iff_or_not]
  tauto

theorem mem_tradablePath {b : Bar} {df0 : List Bar} {pick limit : Nat} :
    b ∈ tradablePath df0 pick limit ↔
      b ∈ pickFiltered df0 pick ∧
      dateOnly b.t ∈ targetDays (pickFiltered df0 pick) limit ∧
      ¬(dateOnly b.t = (targetDays (pickFiltered df0 pick) limit).headD 0 ∧
          timeOfDay b.t < marketOpenCutoff) := by
  unfold tradablePath
  rw [mem_morningFiltered, mem_dayFiltered]
  tauto

theorem tradablePath_ne_nil_imp {df0 : List Bar} {pick limit : Nat}
    (h : tradablePath df0 pick limit ≠ []) :
    df0 ≠ [] ∧ pickFiltered df0 pick ≠ [] ∧
      targetDays (pickFiltered df0 pick) limit ≠ [] := by
  obtain ⟨b, hb⟩ := List.exists_mem_of_ne_nil _ h
  rw [mem_tradablePath] at hb
  refine ⟨?_, ?_, ?_⟩
  · rintro rfl
    rw [mem_pickFiltered] at hb
    exact (List.not_mem_nil b) hb.1.1
  · rintro hpf
    rw [hpf] at hb
    exact (List.not_mem_nil b) hb.1
  · rintro htd
    rw [htd] at hb
    exact (List.not_mem_nil _) hb.2.1

theorem run_ok_iff {df0 : List Bar} {pick : Nat} {rules : List ExitRule}
    {limit : Nat} {ts : ℚ} {o : Outcome} :
    run_simulation (some df0) pick rules limit ts = .ok o ↔
      tradablePath df0 pick limit ≠ [] ∧
      o = resolveOutcome (sequencedPath df0 pick limit)
            (buyBar df0 pick limit).openPrice (buyBar df0 pick limit).t
            rules limit ts := by
  simp only [run_simulation]
  split_ifs with h1 h2 h3 h4
  · simp only [List.isEmpty_iff] at h1
    constructor
    · intro h; cases h
    · rintro ⟨hne, -⟩
      exact absurd (by simp [h1, tradablePath, pickFiltered, sortBars, dayFiltered,
        morningFiltered]) hne
  · simp only [List.isEmpty_iff] at h2
    constructor
    · intro h; cases h
    · rintro ⟨hne, -⟩
      exact absurd ((tradablePath_ne_nil_imp hne).2.1) (by simp [h2])
  · simp only [List.isEmpty_iff] at h3
    constructor
    · intro h; cases h
    · rintro ⟨hne, -⟩
      exact absurd ((tradablePath_ne_nil_imp hne).2.2) (by simp [h3])
  · simp only [List.isEmpty_iff] at h4
    constructor
    · intro h; cases h
    · rintro ⟨hne, -⟩
      exact absurd h4 hne
  · simp only [List.isEmpty_iff] at h4
    constructor
    · intro h
      cases h
      exact ⟨h4, rfl⟩
    · rintro ⟨-, rfl⟩
      rfl

theorem run_err_cases {df? : Option (List Bar)} {pick : Nat} {rules : List ExitRule}
    {limit : Nat} {ts : ℚ} {m : String}
    (h : run_simulation df? pick rules limit ts = .err m) :
    m = "No OHLC data returned from Polygon" ∨
    m = "No data available after the pick date" ∨
    m = "Insufficient data after morning exclusion" ∨
    m = "Logic error: list index out of range" := by
  cases df? with
  | none =>
    simp only [run_simulation] at h
    cases h; tauto
  | some df0 =>
    simp only [run_simulation] at h
    split_ifs at h <;> cases h <;> tauto

theorem length_sequenceBars (df : List Bar) (td : List Nat) :
    (sequenceBars df td).length = df.length := by
  unfold sequenceBars
  rw [List.length_map, List.enum_length]

theorem get_sequenceBars (df : List Bar) (td : List Nat) (i : Nat) (h : i < df.length) :
    (sequenceBars df td).get ⟨i, by rw [length_sequenceBars]; exact h⟩ =
      { bar := df.get ⟨i, h⟩
        trading_timestamp_sequence := i
        trading_day_sequence := List.indexOf (dateOnly (df.get ⟨i, h⟩).t) td
        trading_interval_sequence :=
          (df.take i).countP (fun b => decide (dateOnly b.t = dateOnly (df.get ⟨i, h⟩).t)) } := by
  unfold sequenceBars
  simp [List.get_eq_getElem, List.getElem_map, List.getElem_enum]

theorem mem_sequenceBars {sb : SeqBar} {df : List Bar} {td : List Nat} :
    sb ∈ sequenceBars df td ↔
      ∃ i, ∃ h : i < df.length,
        sb = { bar := df.get ⟨i, h⟩
               trading_timestamp_sequence := i
               trading_day_sequence := List.indexOf (dateOnly (df.get ⟨i, h⟩).t) td
               trading_interval_sequence :=
                 (df.take i).countP
                   (fun b => decide (dateOnly b.t = dateOnly (df.get ⟨i, h⟩).t)) } := by
  rw [List.mem_iff_getElem]
  constructor
  · rintro ⟨i, hi, rfl⟩
    have hi' : i < df.length := by rwa [length_sequenceBars] at hi
    exact ⟨i, hi', by rw [← get_sequenceBars df td i hi']; simp [List.get_eq_getElem]⟩
  · rintro ⟨i, hi, rfl⟩
    refine ⟨i, by rw [length_sequenceBars]; exact hi, ?_⟩
    have := get_sequenceBars df td i hi
    simp only [List.get_eq_getElem] at this
    exact this

theorem bar_mem_of_mem_sequenceBars {sb : SeqBar} {df : List Bar} {td : List Nat}
    (h : sb ∈ sequenceBars df td) : sb.bar ∈ df := by
  rw [mem_sequenceBars] at h
  obtain ⟨i, hi, rfl⟩ := h
  simp [List.get_eq_getElem]

theorem mem_uniqueDays {d : Nat} {df : List Bar} :
    d ∈ uniqueDays df ↔ ∃ b ∈ df, dateOnly b.t = d := by
  unfold uniqueDays
  rw [(List.perm_insertionSort _ _).mem_iff, List.mem_dedup, List.mem_map]

theorem sorted_uniqueDays (df : List Bar) : (uniqueDays df).Sorted (· ≤ ·) := by
  unfold uniqueDays
  exact List.sorted_insertionSort _ _

theorem sorted_targetDays (df : List Bar) (limit : Nat) :
    (targetDays df limit).Sorted (· ≤ ·) := by
  unfold targetDays
  exact (sorted_uniqueDays df).sublist (List.take_sublist _ _)

theorem mem_targetDays_imp {d : Nat} {df : List Bar} {limit : Nat}
    (h : d ∈ targetDays df limit) : ∃ b ∈ df, dateOnly b.t = d := by
  unfold targetDays at h
  exact mem_uniqueDays.mp ((List.take_sublist _ _).mem h)

/-- C6: every bar of the tradable path has `trading_day_sequence ≤
trading_days_limit − 1`; the retained day set is made of distinct
calendar dates after the pick date, sorted ascending, at most
`trading_days_limit` many; and every bar the simulator evaluates (every
bar of the sequenced path) has its calendar date inside that retained
day set — no bar of a later calendar day is ever evaluated. -/
theorem C6_day_limit_bound (df0 : List Bar) (pick limit : Nat) :
    (targetDays (pickFiltered df0 pick) limit).Sorted (· ≤ ·) ∧
    (targetDays (pickFiltered df0 pick) limit).Nodup ∧
    (targetDays (pickFiltered df0 pick) limit).length ≤ limit ∧
    (∀ d ∈ targetDays (pickFiltered df0 pick) limit,
        pick < d ∧ ∃ b ∈ df0, dateOnly b.t = d) ∧
    (∀ sb ∈ sequencedPath df0 pick limit,
        dateOnly sb.bar.t ∈ targetDays (pickFiltered df0 pick) limit ∧
        sb.trading_day_sequence ≤ limit - 1) := by
  refine ⟨sorted_targetDays _ _, ?_, ?_, ?_, ?_⟩
  · exact List.Nodup.sublist (List.take_sublist _ _)
      ((List.perm_insertionSort _ _).nodup_iff.mpr (List.nodup_dedup _))
  · unfold targetDays
    simp [List.length_take_le]
  · intro d hd
    obtain ⟨b, hb, rfl⟩ := mem_targetDays_imp hd
    rw [mem_pickFiltered] at hb
    exact ⟨hb.2, b, hb.1, rfl⟩
  · intro sb hsb
    have hbar := bar_mem_of_mem_sequenceBars hsb
    rw [mem_tradablePath] at hbar
    have hmem : dateOnly sb.bar.t ∈ targetDays (pickFiltered df0 pick) limit := hbar.2.1
    refine ⟨hmem, ?_⟩
    unfold sequencedPath at hsb
    rw [mem_sequenceBars] at hsb
    obtain ⟨i, hi, rfl⟩ := hsb
    have hd : dateOnly ((tradablePath df0 pick limit).get ⟨i, hi⟩).t ∈
        targetDays (pickFiltered df0 pick) limit := hmem
    have hlt := List.indexOf_lt_length.mpr hd
    have hle : (targetDays (pickFiltered df0 pick) limit).length ≤ limit := by
      unfold targetDays
      simp [List.length_take_le]
    dsimp only at hlt ⊢
    omega

/-- C7: every bar of the tradable path has calendar date strictly after
the pick date, and a day-window bar is dropped by the morning exclusion
exactly when it lies on the first retained day with time-of-day before
09:40 — bars of later retained days are kept regardless of
time-of-day. -/
theorem C7_pick_and_morning_exclusion (df0 : List Bar) (pick limit : Nat) :
    (∀ b ∈ tradablePath df0 pick limit, pick < dateOnly b.t) ∧
    (∀ b, b ∈ tradablePath df0 pick limit ↔
        b ∈ dayFiltered (pickFiltered df0 pick) (targetDays (pickFiltered df0 pick) limit) ∧
        ¬(dateOnly b.t = firstDayOf df0 pick limit ∧
            timeOfDay b.t < marketOpenCutoff)) := by
  constructor
  · intro b hb
    rw [mem_tradablePath] at hb
    exact (mem_pickFiltered.mp hb.1).2
  · intro b
    rw [mem_tradablePath, mem_dayFiltered, firstDayOf]
    tauto

/-! Theory of the trailing-stop scan. -/

theorem accFrom_zero (m : ℚ) (l : List SeqBar) : accFrom m l 0 = m := rfl

theorem accFrom_cons (m : ℚ) (x : SeqBar) (xs : List SeqBar) (k : Nat) :
    accFrom m (x :: xs) (k + 1) = accFrom (tsStep m x) xs k := rfl

theorem accFrom_succ (m : ℚ) (l : List SeqBar) (k : Nat) (h : k < l.length) :
    accFrom m l (k + 1) = tsStep (accFrom m l k) (l.get ⟨k, h⟩) := by
  induction l generalizing m k with
  | nil => exact absurd h (by simp)
  | cons x xs ih =>
    cases k with
    | zero => rfl
    | succ k' =>
      have h' : k' < xs.length := by simpa using h
      rw [accFrom_cons, ih (tsStep m x) k' h', accFrom_cons]
      rfl

/-- Property of a sequenced list: the bar at position `i` carries
`trading_timestamp_sequence = i` (true of every `sequenceBars` result). -/
def indexedBy (sp : List SeqBar) : Prop :=
  ∀ i : Fin sp.length, (sp.get i).trading_timestamp_sequence = i.val

theorem tts_sequenceBars (df : List Bar) (td : List Nat) (i : Nat)
    (h1 : i < (sequenceBars df td).length) :
    ((sequenceBars df td).get ⟨i, h1⟩).trading_timestamp_sequence = i := by
  have hi : i < df.length := lt_of_lt_of_eq h1 (length_sequenceBars df td)
  rw [get_sequenceBars df td i hi]

theorem indexedBy_sequenceBars (df : List Bar) (td : List Nat) :
    indexedBy (sequenceBars df td) := by
  intro i
  exact tts_sequenceBars df td i.val i.isLt

theorem indexedBy_sequencedPath (df0 : List Bar) (pick limit : Nat) :
    indexedBy (sequencedPath df0 pick limit) :=
  indexedBy_sequenceBars _ _

/-- The scan returns a breach exactly at the first breaching bar: the
returned bar sits at some position `k`, its trigger-sell price is the
running accumulator there times `(1 − ts_pct)`, its low is at or below
that price, and no earlier bar's low reached its own trigger-sell
price. -/
theorem tsScan_eq_some_iff (ts m : ℚ) (l : List SeqBar) (sb : SeqBar) (p : ℚ) :
    tsScan ts m l = some (sb, p) ↔
      ∃ k, ∃ hk : k < l.length,
        sb = l.get ⟨k, hk⟩ ∧
        p = accFrom m l (k + 1) * (1 - ts) ∧
        sb.bar.low ≤ p ∧
        ∀ j, (hj : j < k) →
          ¬((l.get ⟨j, Nat.lt_trans hj hk⟩).bar.low ≤ accFrom m l (j + 1) * (1 - ts)) := by
  induction l generalizing m with
  | nil => simp [tsScan]
  | cons x xs ih =>
    by_cases hbr : x.bar.low ≤ tsStep m x * (1 - ts)
    · simp only [tsScan, if_pos hbr]
      constructor
      · intro h
        simp only [Option.some.injEq, Prod.mk.injEq] at h
        obtain ⟨rfl, rfl⟩ := h
        refine ⟨0, Nat.succ_pos _, rfl, ?_, hbr, ?_⟩
        · rw [accFrom_cons, accFrom_zero]
        · intro j hj; omega
      · rintro ⟨k, hk, rfl, rfl, hlow, hmin⟩
        cases k with
        | zero => rw [accFrom_cons, accFrom_zero]; rfl
        | succ k' =>
          exfalso
          refine hmin 0 (Nat.succ_pos _) ?_
          rw [accFrom_cons, accFrom_zero]
          simpa [List.get_eq_getElem] using hbr
    · simp only [tsScan, if_neg hbr]
      rw [ih (tsStep m x)]
      constructor
      · rintro ⟨k, hk, rfl, rfl, hlow, hmin⟩
        refine ⟨k + 1, Nat.succ_lt_succ hk, by simp [List.get_eq_getElem], ?_, hlow, ?_⟩
        · rw [accFrom_cons]
        · intro j hj
          cases j with
          | zero =>
            rw [accFrom_cons, accFrom_zero]
            simpa [List.get_eq_getElem] using hbr
          | succ j' =>
            rw [accFrom_cons]
            have := hmin j' (by omega)
            simpa [List.get_eq_getElem] using this
      · rintro ⟨k, hk, hsb, hp, hlow, hmin⟩
        cases k with
        | zero =>
          exfalso
          apply hbr
          rw [accFrom_cons, accFrom_zero] at hp
          subst hsb
          simpa [hp, List.get_eq_getElem] using hlow
        | succ k' =>
          have hk' : k' < xs.length := by simpa using hk
          refine ⟨k', hk', by simpa [List.get_eq_getElem] using hsb, ?_, hlow, ?_⟩
          · rw [accFrom_cons] at hp
            exact hp
          · intro j hj
            have := hmin (j + 1) (by omega)
            rw [accFrom_cons] at this
            simpa [List.get_eq_getElem] using this

/-- The scan returns `none` exactly when no bar's low ever reaches its
own trigger-sell price. -/
theorem tsScan_eq_none_iff (ts m : ℚ) (l : List SeqBar) :
    tsScan ts m l = none ↔
      ∀ k, (hk : k < l.length) →
        ¬((l.get ⟨k, hk⟩).bar.low ≤ accFrom m l (k + 1) * (1 - ts)) := by
  induction l generalizing m with
  | nil => simp [tsScan]
  | cons x xs ih =>
    by_cases hbr : x.bar.low ≤ tsStep m x * (1 - ts)
    · simp only [tsScan, if_pos hbr]
      constructor
      · intro h; cases h
      · intro h
        exfalso
        refine h 0 (Nat.succ_pos _) ?_
        rw [accFrom_cons, accFrom_zero]
        simpa [List.get_eq_getElem] using hbr
    · simp only [tsScan, if_neg hbr]
      rw [ih (tsStep m x)]
      constructor
      · intro h k hk
        cases k with
        | zero =>
          rw [accFrom_cons, accFrom_zero]
          simpa [List.get_eq_getElem] using hbr
        | succ k' =>
          rw [accFrom_cons]
          have := h k' (by simpa using hk)
          simpa [List.get_eq_getElem] using this
      · intro h k hk
        have := h (k + 1) (by simpa using hk)
        rw [accFrom_cons] at this
        simpa [List.get_eq_getElem] using this

@[simp] theorem trigger_mkOutcome (bp : ℚ) (bt : Nat) (s : ℚ) (er : SeqBar) (tr : Trigger) :
    (mkOutcome bp bt s er tr).trigger = tr := rfl

@[simp] theorem sell_price_mkOutcome (bp : ℚ) (bt : Nat) (s : ℚ) (er : SeqBar) (tr : Trigger) :
    (mkOutcome bp bt s er tr).sell_price = s := rfl

@[simp] theorem buy_price_mkOutcome (bp : ℚ) (bt : Nat) (s : ℚ) (er : SeqBar) (tr : Trigger) :
    (mkOutcome bp bt s er tr).buy_price = bp := rfl

@[simp] theorem buy_timestamp_mkOutcome (bp : ℚ) (bt : Nat) (s : ℚ) (er : SeqBar) (tr : Trigger) :
    (mkOutcome bp bt s er tr).buy_timestamp = bt := rfl

@[simp] theorem sell_timestamp_mkOutcome (bp : ℚ) (bt : Nat) (s : ℚ) (er : SeqBar) (tr : Trigger) :
    (mkOutcome bp bt s er tr).sell_timestamp = er.bar.t := rfl

@[simp] theorem tts_mkOutcome (bp : ℚ) (bt : Nat) (s : ℚ) (er : SeqBar) (tr : Trigger) :
    (mkOutcome bp bt s er tr).trading_timestamp_sequence = er.trading_timestamp_sequence := rfl

@[simp] theorem tds_mkOutcome (bp : ℚ) (bt : Nat) (s : ℚ) (er : SeqBar) (tr : Trigger) :
    (mkOutcome bp bt s er tr).trading_day_sequence = er.trading_day_sequence := rfl

@[simp] theorem tis_mkOutcome (bp : ℚ) (bt : Nat) (s : ℚ) (er : SeqBar) (tr : Trigger) :
    (mkOutcome bp bt s er tr).trading_interval_sequence = er.trading_interval_sequence := rfl

/-! Running-maximum characterization (claims about the scan state). -/

theorem accFrom_spec (sp : List SeqBar) (hsp : indexedBy sp) :
    ∀ k, (hk : k < sp.length) →
      (∀ j, (hj : j ≤ k) →
          (sp.get ⟨j, lt_of_le_of_lt hj hk⟩).bar.high ≤ accFrom 0 sp (k + 1)) ∧
      (∃ j, ∃ hj : j ≤ k,
          accFrom 0 sp (k + 1) = (sp.get ⟨j, lt_of_le_of_lt hj hk⟩).bar.high) := by
  intro k
  induction k with
  | zero =>
    intro hk
    have h0 : (sp.get ⟨0, hk⟩).trading_timestamp_sequence = 0 := hsp ⟨0, hk⟩
    have hacc : accFrom 0 sp 1 = (sp.get ⟨0, hk⟩).bar.high := by
      rw [accFrom_succ 0 sp 0 hk, accFrom_zero]
      unfold tsStep
      rw [if_pos h0]
    constructor
    · intro j hj
      interval_cases j
      rw [hacc]
    · exact ⟨0, le_refl 0, hacc⟩
  | succ k ih =>
    intro hk
    have hk' : k < sp.length := by omega
    have htts : (sp.get ⟨k + 1, hk⟩).trading_timestamp_sequence = k + 1 := hsp ⟨k + 1, hk⟩
    have hacc : accFrom 0 sp (k + 2) =
        max (accFrom 0 sp (k + 1)) (sp.get ⟨k + 1, hk⟩).bar.high := by
      rw [accFrom_succ 0 sp (k + 1) hk]
      unfold tsStep
      rw [if_neg (by omega)]
    obtain ⟨hub, hat⟩ := ih hk'
    constructor
    · intro j hj
      rcases Nat.lt_or_ge j (k + 1) with hlt | hge
      · have := hub j (by omega)
        rw [hacc]
        exact le_trans this (le_max_left _ _)
      · have hj1 : j = k + 1 := by omega
        subst hj1
        rw [hacc]
        exact le_max_right _ _
    · rcases le_total (accFrom 0 sp (k + 1)) ((sp.get ⟨k + 1, hk⟩).bar.high) with hle | hge
      · refine ⟨k + 1, le_refl _, ?_⟩
        rw [hacc, max_eq_right hle]
      · obtain ⟨j, hj, heq⟩ := hat
        refine ⟨j, by omega, ?_⟩
        rw [hacc, max_eq_left hge, heq]

/-- C5: at every position `k` of the sequenced path, the trailing-stop
running maximum entering the next step (`accFrom 0 sp (k+1)`, the value
the scan holds after processing the bar with
`trading_timestamp_sequence = k`) is non-decreasing from one bar to the
next, and equals the maximum of the highs of all bars whose
`trading_timestamp_sequence` is at most `k` — it is never reset after
the start, in particular not per trading day. -/
theorem C5_running_maximum (df0 : List Bar) (pick limit : Nat) :
    ∀ k, (hk : k < (sequencedPath df0 pick limit).length) →
      (k + 1 < (sequencedPath df0 pick limit).length →
        accFrom 0 (sequencedPath df0 pick limit) (k + 1) ≤
          accFrom 0 (sequencedPath df0 pick limit) (k + 2)) ∧
      (∀ sb ∈ sequencedPath df0 pick limit,
          sb.trading_timestamp_sequence ≤ k →
          sb.bar.high ≤ accFrom 0 (sequencedPath df0 pick limit) (k + 1)) ∧
      (∃ sb ∈ sequencedPath df0 pick limit,
          sb.trading_timestamp_sequence ≤ k ∧
          accFrom 0 (sequencedPath df0 pick limit) (k + 1) = sb.bar.high) := by
  intro k hk
  have hsp := indexedBy_sequencedPath df0 pick limit
  obtain ⟨hub, hat⟩ := accFrom_spec _ hsp k hk
  refine ⟨?_, ?_, ?_⟩
  · intro hk1
    obtain ⟨hub', hat'⟩ := accFrom_spec _ hsp (k + 1) hk1
    obtain ⟨j, hj, heq⟩ := hat
    rw [heq]
    exact hub' j (by omega)
  · intro sb hmem htts
    obtain ⟨i, hi, hget⟩ := List.mem_iff_getElem.mp hmem
    have htt : sb.trading_timestamp_sequence = i := by
      rw [← hget]
      exact hsp ⟨i, hi⟩
    have hile : i ≤ k := by omega
    have := hub i hile
    rw [List.get_eq_getElem] at this
    rw [hget] at this
    exact this
  · obtain ⟨j, hj, heq⟩ := hat
    refine ⟨(sequencedPath df0 pick limit).get ⟨j, lt_of_le_of_lt hj hk⟩,
      List.get_mem _ _ _, ?_, heq⟩
    rw [hsp ⟨j, lt_of_le_of_lt hj hk⟩]
    exact hj

/-! Order lemmas for extended sequence numbers and the earliest-breach
minimum. -/

theorem seqLE_seqMin_left (a b : Option Nat) : seqLE (seqMin a b) a := by
  rcases a with _ | x <;> rcases b with _ | y <;> simp [seqMin, seqLE]

theorem seqLE_seqMin_right (a b : Option Nat) : seqLE (seqMin a b) b := by
  rcases a with _ | x <;> rcases b with _ | y <;> simp [seqMin, seqLE]

theorem seqLE_trans {a b c : Option Nat} (h1 : seqLE a b) (h2 : seqLE b c) : seqLE a c := by
  rcases a with _ | x <;> rcases b with _ | y <;> rcases c with _ | z <;>
    simp_all [seqLE] <;> omega

theorem earliestSeq_cons (x : SeqBar) (xs : List SeqBar) :
    earliestSeq (x :: xs) = seqMin (some x.trading_timestamp_sequence) (earliestSeq xs) := rfl

theorem earliestSeq_le {hits : List SeqBar} {sb : SeqBar} (h : sb ∈ hits) :
    seqLE (earliestSeq hits) (some sb.trading_timestamp_sequence) := by
  induction hits with
  | nil => cases h
  | cons x xs ih =>
    rw [earliestSeq_cons]
    rcases List.mem_cons.mp h with rfl | hmem
    · exact seqLE_seqMin_left _ _
    · exact seqLE_trans (seqLE_seqMin_right _ _) (ih hmem)

theorem earliestSeq_attained (hits : List SeqBar) :
    earliestSeq hits = none ∨
      ∃ sb ∈ hits, earliestSeq hits = some sb.trading_timestamp_sequence := by
  induction hits with
  | nil => left; rfl
  | cons x xs ih =>
    rw [earliestSeq_cons]
    right
    rcases ih with hnone | ⟨sb, hmem, heq⟩
    · rw [hnone]
      exact ⟨x, List.mem_cons_self _ _, rfl⟩
    · rw [heq]
      rcases le_total x.trading_timestamp_sequence sb.trading_timestamp_sequence with hle | hge
      · exact ⟨x, List.mem_cons_self _ _, by simp [seqMin, Nat.min_eq_left hle]⟩
      · exact ⟨sb, List.mem_cons_of_mem _ hmem, by simp [seqMin, Nat.min_eq_right hge]⟩

/-- Branch structure of the event race: which trigger the resolver
reports, characterized by the order of the three earliest breach
sequence numbers (`none` = no breach = +∞).  Take-profit wins all ties;
stop-loss wins its tie against trailing-stop. -/
theorem resolveOutcome_trigger (sp : List SeqBar) (buy : ℚ) (bt : Nat)
    (rules : List ExitRule) (limit : Nat) (ts : ℚ) :
    ((resolveOutcome sp buy bt rules limit ts).trigger = .takeProfit ↔
        earliest_tp_of sp rules buy ≠ none ∧
        seqLE (earliest_tp_of sp rules buy) (earliest_sl_of sp rules buy) ∧
        seqLE (earliest_tp_of sp rules buy) (earliest_ts_of ts sp)) ∧
    ((resolveOutcome sp buy bt rules limit ts).trigger = .stopLoss ↔
        seqLT (earliest_sl_of sp rules buy) (earliest_tp_of sp rules buy) ∧
        seqLE (earliest_sl_of sp rules buy) (earliest_ts_of ts sp)) ∧
    ((resolveOutcome sp buy bt rules limit ts).trigger = .trailingStop ↔
        seqLT (earliest_ts_of ts sp) (earliest_tp_of sp rules buy) ∧
        seqLT (earliest_ts_of ts sp) (earliest_sl_of sp rules buy)) ∧
    ((resolveOutcome sp buy bt rules limit ts).trigger = .endOfHolding ↔
        earliest_tp_of sp rules buy = none ∧ earliest_sl_of sp rules buy = none ∧
        earliest_ts_of ts sp = none) := by
  unfold resolveOutcome first_event_of
  generalize earliest_tp_of sp rules buy = a
  generalize earliest_sl_of sp rules buy = b
  generalize earliest_ts_of ts sp = c
  rcases a with _ | x <;> rcases b with _ | y <;> rcases c with _ | z <;>
    simp only [seqMin] <;> split_ifs with h1 h2 h3 <;>
    simp_all [seqLE, seqLT] <;> omega

/-- When the trailing-stop breach strictly precedes both the earliest
take-profit and the earliest stop-loss breaches, the resolver takes the
trailing-stop branch. -/
theorem resolveOutcome_eq_ts (sp : List SeqBar) (buy : ℚ) (bt : Nat)
    (rules : List ExitRule) (limit : Nat) (ts : ℚ)
    (h1 : seqLT (earliest_ts_of ts sp) (earliest_tp_of sp rules buy))
    (h2 : seqLT (earliest_ts_of ts sp) (earliest_sl_of sp rules buy)) :
    resolveOutcome sp buy bt rules limit ts =
      mkOutcome buy bt (tsExitOf ts sp).2 (tsExitOf ts sp).1 .trailingStop := by
  unfold resolveOutcome first_event_of
  generalize earliest_tp_of sp rules buy = a at h1
  generalize earliest_sl_of sp rules buy = b at h2
  generalize earliest_ts_of ts sp = c at h1 h2 ⊢
  rcases c with _ | z
  · simp [seqLT] at h1
  · rcases a with _ | x <;> rcases b with _ | y <;>
      simp only [seqMin, seqLT] at h1 h2 ⊢ <;>
      split_ifs with g1 g2 g3 <;>
      first
        | rfl
        | (exfalso; simp_all; omega)
        | (exfalso; simp_all)

/-- When none of the three breach kinds ever fires, the resolver takes
the end-of-holding branch. -/
theorem resolveOutcome_eq_eoh (sp : List SeqBar) (buy : ℚ) (bt : Nat)
    (rules : List ExitRule) (limit : Nat) (ts : ℚ)
    (h1 : earliest_tp_of sp rules buy = none)
    (h2 : earliest_sl_of sp rules buy = none)
    (h3 : earliest_ts_of ts sp = none) :
    resolveOutcome sp buy bt rules limit ts =
      mkOutcome buy bt (eohExitRow sp limit).bar.openPrice (eohExitRow sp limit)
        .endOfHolding := by
  unfold resolveOutcome first_event_of
  rw [h1, h2, h3]
  simp [seqMin]

/-- C1: for every successful simulation the reported trigger is the
winner of the event race on `trading_timestamp_sequence` numbers (an
absent breach counting as +∞): Take Profit is reported exactly when its
earliest breach is at or before both others (so it wins every tie);
Stop Loss exactly when it is strictly before Take Profit and at or
before Trailing Stop (so it wins the tie against Trailing Stop);
Trailing Stop exactly when it is strictly before both; End of Holding
exactly when all three are absent — hence exactly one trigger is
reported. -/
theorem C1_trigger_race {df0 : List Bar} {pick : Nat} {rules : List ExitRule}
    {limit : Nat} {ts : ℚ} {o : Outcome}
    (h : run_simulation (some df0) pick rules limit ts = .ok o) :
    (o.trigger = .takeProfit ↔
        earliest_tp_of (sequencedPath df0 pick limit) rules
            (buyBar df0 pick limit).openPrice ≠ none ∧
        seqLE (earliest_tp_of (sequencedPath df0 pick limit) rules
            (buyBar df0 pick limit).openPrice)
          (earliest_sl_of (sequencedPath df0 pick limit) rules
            (buyBar df0 pick limit).openPrice) ∧
        seqLE (earliest_tp_of (sequencedPath df0 pick limit) rules
            (buyBar df0 pick limit).openPrice)
          (earliest_ts_of ts (sequencedPath df0 pick limit))) ∧
    (o.trigger = .stopLoss ↔
        seqLT (earliest_sl_of (sequencedPath df0 pick limit) rules
            (buyBar df0 pick limit).openPrice)
          (earliest_tp_of (sequencedPath df0 pick limit) rules
            (buyBar df0 pick limit).openPrice) ∧
        seqLE (earliest_sl_of (sequencedPath df0 pick limit) rules
            (buyBar df0 pick limit).openPrice)
          (earliest_ts_of ts (sequencedPath df0 pick limit))) ∧
    (o.trigger = .trailingStop ↔
        seqLT (earliest_ts_of ts (sequencedPath df0 pick limit))
          (earliest_tp_of (sequencedPath df0 pick limit) rules
            (buyBar df0 pick limit).openPrice) ∧
        seqLT (earliest_ts_of ts (sequencedPath df0 pick limit))
          (earliest_sl_of (sequencedPath df0 pick limit) rules
            (buyBar df0 pick limit).openPrice)) ∧
    (o.trigger = .endOfHolding ↔
        earliest_tp_of (sequencedPath df0 pick limit) rules
            (buyBar df0 pick limit).openPrice = none ∧
        earliest_sl_of (sequencedPath df0 pick limit) rules
            (buyBar df0 pick limit).openPrice = none ∧
        earliest_ts_of ts (sequencedPath df0 pick limit) = none) := by
  obtain ⟨hne, ho⟩ := run_ok_iff.mp h
  subst ho
  exact resolveOutcome_trigger _ _ _ _ _ _

instance : IsTotal Bar (fun a b => a.t ≤ b.t) := ⟨fun a b => Nat.le_total a.t b.t⟩

instance : IsTrans Bar (fun a b => a.t ≤ b.t) := ⟨fun _ _ _ => Nat.le_trans⟩

theorem sortBars_sorted (l : List Bar) :
    (sortBars l).Sorted (fun a b => a.t ≤ b.t) :=
  List.sorted_insertionSort _ l

theorem tradablePath_sorted (df0 : List Bar) (pick limit : Nat) :
    (tradablePath df0 pick limit).Sorted (fun a b => a.t ≤ b.t) := by
  unfold tradablePath morningFiltered dayFiltered
  exact ((sortBars_sorted _).filter _).filter _

theorem headD_le_of_mem_sorted {l : List Bar} {b : Bar}
    (hs : l.Sorted (fun a b => a.t ≤ b.t)) (hb : b ∈ l) (d : Bar) :
    (l.headD d).t ≤ b.t := by
  cases l with
  | nil => cases hb
  | cons x xs =>
    rcases List.mem_cons.mp hb with rfl | hmem
    · exact Nat.le_refl _
    · exact (List.pairwise_cons.mp hs).1 b hmem

theorem headD_le_of_mem_sorted_nat {l : List Nat} {d0 : Nat}
    (hs : l.Sorted (· ≤ ·)) {x : Nat} (hx : x ∈ l) : l.headD d0 ≤ x := by
  cases l with
  | nil => cases hx
  | cons y ys =>
    rcases List.mem_cons.mp hx with rfl | hmem
    · exact Nat.le_refl _
    · exact (List.pairwise_cons.mp hs).1 x hmem

/-- C2: the trailing-stop scan fires exactly at the first bar (in
`trading_timestamp_sequence` order) whose low is at or below the
running-maximum trigger-sell price computed as of and including that
bar, and stops there; no earlier bar satisfies its own check, and if the
scan returns nothing then no bar of the path ever satisfies it.  When
Trailing Stop wins the race, the outcome's sell price is the returned
trigger-sell price (not the breach bar's low) and the sell timestamp is
the breach bar's. -/
theorem C2_trailing_stop_breach (df0 : List Bar) (pick limit : Nat) (ts : ℚ) :
    (∀ sb p, tsScan ts 0 (sequencedPath df0 pick limit) = some (sb, p) →
        ∃ k, ∃ hk : k < (sequencedPath df0 pick limit).length,
          sb = (sequencedPath df0 pick limit).get ⟨k, hk⟩ ∧
          sb.trading_timestamp_sequence = k ∧
          p = accFrom 0 (sequencedPath df0 pick limit) (k + 1) * (1 - ts) ∧
          sb.bar.low ≤ p ∧
          ∀ j, (hj : j < k) →
            ¬(((sequencedPath df0 pick limit).get ⟨j, Nat.lt_trans hj hk⟩).bar.low ≤
                accFrom 0 (sequencedPath df0 pick limit) (j + 1) * (1 - ts))) ∧
    (tsScan ts 0 (sequencedPath df0 pick limit) = none →
        ∀ k, (hk : k < (sequencedPath df0 pick limit).length) →
          ¬(((sequencedPath df0 pick limit).get ⟨k, hk⟩).bar.low ≤
              accFrom 0 (sequencedPath df0 pick limit) (k + 1) * (1 - ts))) ∧
    (∀ rules o, run_simulation (some df0) pick rules limit ts = .ok o →
        o.trigger = .trailingStop →
        ∃ sb p, tsScan ts 0 (sequencedPath df0 pick limit) = some (sb, p) ∧
          o.sell_price = p ∧ o.sell_timestamp = sb.bar.t) := by
  refine ⟨?_, ?_, ?_⟩
  · intro sb p hscan
    obtain ⟨k, hk, hsb, hp, hlow, hmin⟩ := (tsScan_eq_some_iff ts 0 _ sb p).mp hscan
    refine ⟨k, hk, hsb, ?_, hp, hlow, hmin⟩
    rw [hsb]
    exact indexedBy_sequencedPath df0 pick limit ⟨k, hk⟩
  · intro hscan
    exact (tsScan_eq_none_iff ts 0 _).mp hscan
  · intro rules o hrun htrig
    obtain ⟨hne, ho⟩ := run_ok_iff.mp hrun
    subst ho
    obtain ⟨hlt1, hlt2⟩ := (resolveOutcome_trigger (sequencedPath df0 pick limit)
      (buyBar df0 pick limit).openPrice (buyBar df0 pick limit).t
      rules limit ts).2.2.1.mp htrig
    rcases hscan : tsScan ts 0 (sequencedPath df0 pick limit) with _ | pr
    · exfalso
      have : earliest_ts_of ts (sequencedPath df0 pick limit) = none := by
        unfold earliest_ts_of
        rw [hscan]
        rfl
      rw [this] at hlt1
      exact hlt1
    · have hres := resolveOutcome_eq_ts (sequencedPath df0 pick limit)
        (buyBar df0 pick limit).openPrice (buyBar df0 pick limit).t
        rules limit ts hlt1 hlt2
      obtain ⟨sb, p⟩ := pr
      refine ⟨sb, p, rfl, ?_, ?_⟩
      · rw [hres]
        unfold tsExitOf
        rw [hscan]
        rfl
      · rw [hres]
        unfold tsExitOf
        rw [hscan]
        rfl

theorem headD_mem {α : Type} {l : List α} (h : l ≠ []) (d : α) : l.headD d ∈ l := by
  cases l with
  | nil => exact absurd rfl h
  | cons x xs => exact List.mem_cons_self _ _

theorem headD_eq_get {α : Type} {l : List α} (h : l ≠ []) (d : α) :
    l.headD d = l.get ⟨0, List.length_pos.mpr h⟩ := by
  cases l with
  | nil => exact absurd rfl h
  | cons x xs => rfl

/-- Whatever branch the resolver takes, the buy price and buy timestamp
it reports are the ones passed in from the entry bar. -/
theorem resolveOutcome_buy (sp : List SeqBar) (buy : ℚ) (bt : Nat)
    (rules : List ExitRule) (limit : Nat) (ts : ℚ) :
    (resolveOutcome sp buy bt rules limit ts).buy_price = buy ∧
    (resolveOutcome sp buy bt rules limit ts).buy_timestamp = bt := by
  unfold resolveOutcome
  split_ifs <;> simp

/-- C3 (amended): for every successful simulation the buy price and
timestamp are the open and timestamp of the first bar of the tradable
path; that bar is the time-minimum of the path; whenever the earliest
retained day still holds a bar of the path, the entry bar lies on that
day at or after 09:40 (so it is the first bar at/after 09:40 of the
earliest retained day); and the entry fields do not depend on
`tp_sl_list` or `ts_pct`. -/
theorem C3_entry_determinism (df0 : List Bar) (pick limit : Nat) :
    (∀ (rules : List ExitRule) (ts : ℚ) (o : Outcome),
        run_simulation (some df0) pick rules limit ts = .ok o →
        o.buy_price = ((tradablePath df0 pick limit).headD default).openPrice ∧
        o.buy_timestamp = ((tradablePath df0 pick limit).headD default).t) ∧
    (∀ b ∈ tradablePath df0 pick limit,
        ((tradablePath df0 pick limit).headD default).t ≤ b.t) ∧
    ((∃ b ∈ tradablePath df0 pick limit,
          dateOnly b.t = firstDayOf df0 pick limit) →
        dateOnly ((tradablePath df0 pick limit).headD default).t =
          firstDayOf df0 pick limit ∧
        marketOpenCutoff ≤ timeOfDay ((tradablePath df0 pick limit).headD default).t) ∧
    (∀ (rules : List ExitRule) (ts : ℚ) (o : Outcome)
        (rules2 : List ExitRule) (ts2 : ℚ) (o2 : Outcome),
        run_simulation (some df0) pick rules limit ts = .ok o →
        run_simulation (some df0) pick rules2 limit ts2 = .ok o2 →
        o.buy_price = o2.buy_price ∧ o.buy_timestamp = o2.buy_timestamp) := by
  have hbuyfields : ∀ (rules : List ExitRule) (ts : ℚ) (o : Outcome),
      run_simulation (some df0) pick rules limit ts = .ok o →
      o.buy_price = ((tradablePath df0 pick limit).headD default).openPrice ∧
      o.buy_timestamp = ((tradablePath df0 pick limit).headD default).t := by
    intro rules ts o h
    obtain ⟨hne, ho⟩ := run_ok_iff.mp h
    subst ho
    exact resolveOutcome_buy _ _ _ _ _ _
  refine ⟨hbuyfields, ?_, ?_, ?_⟩
  · intro b hb
    exact headD_le_of_mem_sorted (tradablePath_sorted df0 pick limit) hb _
  · rintro ⟨b0, hb0, hd0⟩
    have hne : tradablePath df0 pick limit ≠ [] := by
      intro hnil
      rw [hnil] at hb0
      exact List.not_mem_nil _ hb0
    have hhead := headD_mem hne (default : Bar)
    have hmem := mem_tradablePath.mp hhead
    have htmin : ((tradablePath df0 pick limit).headD default).t ≤ b0.t :=
      headD_le_of_mem_sorted (tradablePath_sorted df0 pick limit) hb0 _
    have hdle : dateOnly ((tradablePath df0 pick limit).headD default).t ≤
        firstDayOf df0 pick limit := by
      rw [← hd0]
      exact Nat.div_le_div_right htmin
    have hdge : firstDayOf df0 pick limit ≤
        dateOnly ((tradablePath df0 pick limit).headD default).t := by
      unfold firstDayOf
      exact headD_le_of_mem_sorted_nat (sorted_targetDays _ _) hmem.2.1
    have hdeq : dateOnly ((tradablePath df0 pick limit).headD default).t =
        firstDayOf df0 pick limit := Nat.le_antisymm hdle hdge
    refine ⟨hdeq, ?_⟩
    by_contra hlt
    exact hmem.2.2 ⟨hdeq, by omega⟩
  · intro rules ts o rules2 ts2 o2 h1 h2
    obtain ⟨hb1, ht1⟩ := hbuyfields rules ts o h1
    obtain ⟨hb2, ht2⟩ := hbuyfields rules2 ts2 o2 h2
    rw [hb1, hb2, ht1, ht2]
    exact ⟨rfl, rfl⟩

theorem eohExitRow_of_cand_ne_nil {sp : List SeqBar} {limit : Nat}
    (h : sp.filter (fun sb =>
        decide (sb.trading_day_sequence = limit - 1) &&
        decide (sb.trading_interval_sequence = 0)) ≠ []) :
    eohExitRow sp limit ∈ sp ∧
    (eohExitRow sp limit).trading_day_sequence = limit - 1 ∧
    (eohExitRow sp limit).trading_interval_sequence = 0 := by
  unfold eohExitRow
  have hmem := headD_mem h (sp.getLastD default)
  have hf := List.mem_filter.mp hmem
  have hb := hf.2
  rw [Bool.and_eq_true, decide_eq_true_eq, decide_eq_true_eq] at hb
  exact ⟨hf.1, hb.1, hb.2⟩

theorem eohExitRow_of_cand_nil {sp : List SeqBar} {limit : Nat}
    (h : sp.filter (fun sb =>
        decide (sb.trading_day_sequence = limit - 1) &&
        decide (sb.trading_interval_sequence = 0)) = []) :
    eohExitRow sp limit = sp.getLastD default := by
  unfold eohExitRow
  rw [h]
  rfl

/-- C4 (amended): when no bar of the sequenced path is flagged for
take-profit or stop-loss and the trailing-stop scan finds no breach, the
trigger is "End of Holding Period" and the exit bar is the first bar
with `trading_day_sequence = trading_days_limit − 1` and
`trading_interval_sequence = 0`, falling back to the path's last bar
when no such bar exists; the sell price is the exit bar's opening price
(the opening price of the last retained day's first bar only in the
non-fallback case — in the fallback case it is the open of the path's
last bar). -/
theorem C4_time_fallback (df0 : List Bar) (pick limit : Nat) (rules : List ExitRule)
    (ts : ℚ) (o : Outcome)
    (hrun : run_simulation (some df0) pick rules limit ts = .ok o)
    (htp : ∀ sb ∈ sequencedPath df0 pick limit,
        is_tp_breached rules (buyBar df0 pick limit).openPrice sb = false)
    (hsl : ∀ sb ∈ sequencedPath df0 pick limit,
        is_sl_breached rules (buyBar df0 pick limit).openPrice sb = false)
    (hts : tsScan ts 0 (sequencedPath df0 pick limit) = none) :
    o.trigger = .endOfHolding ∧
    o.sell_price = (eohExitRow (sequencedPath df0 pick limit) limit).bar.openPrice ∧
    o.sell_timestamp = (eohExitRow (sequencedPath df0 pick limit) limit).bar.t ∧
    ((∃ sb ∈ sequencedPath df0 pick limit,
          sb.trading_day_sequence = limit - 1 ∧ sb.trading_interval_sequence = 0) →
        eohExitRow (sequencedPath df0 pick limit) limit ∈ sequencedPath df0 pick limit ∧
        (eohExitRow (sequencedPath df0 pick limit) limit).trading_day_sequence =
          limit - 1 ∧
        (eohExitRow (sequencedPath df0 pick limit) limit).trading_interval_sequence
          = 0) ∧
    ((¬∃ sb ∈ sequencedPath df0 pick limit,
          sb.trading_day_sequence = limit - 1 ∧ sb.trading_interval_sequence = 0) →
        eohExitRow (sequencedPath df0 pick limit) limit =
          (sequencedPath df0 pick limit).getLastD default) := by
  obtain ⟨hne, ho⟩ := run_ok_iff.mp hrun
  subst ho
  have h1 : earliest_tp_of (sequencedPath df0 pick limit) rules
      (buyBar df0 pick limit).openPrice = none := by
    unfold earliest_tp_of
    rw [List.filter_eq_nil_iff.mpr (fun sb hsb => by rw [htp sb hsb]; simp)]
    rfl
  have h2 : earliest_sl_of (sequencedPath df0 pick limit) rules
      (buyBar df0 pick limit).openPrice = none := by
    unfold earliest_sl_of
    rw [List.filter_eq_nil_iff.mpr (fun sb hsb => by rw [hsl sb hsb]; simp)]
    rfl
  have h3 : earliest_ts_of ts (sequencedPath df0 pick limit) = none := by
    unfold earliest_ts_of
    rw [hts]
    rfl
  rw [resolveOutcome_eq_eoh _ _ _ _ _ _ h1 h2 h3]
  refine ⟨by simp, by simp, by simp, ?_, ?_⟩
  · rintro ⟨sb, hsb, hd, hi⟩
    apply eohExitRow_of_cand_ne_nil
    intro hnil
    have : sb ∈ (sequencedPath df0 pick limit).filter (fun sb =>
        decide (sb.trading_day_sequence = limit - 1) &&
        decide (sb.trading_interval_sequence = 0)) :=
      List.mem_filter.mpr ⟨hsb, by simp [hd, hi]⟩
    rw [hnil] at this
    exact List.not_mem_nil _ this
  · intro hno
    apply eohExitRow_of_cand_nil
    apply List.filter_eq_nil_iff.mpr
    intro sb hsb hp
    apply hno
    refine ⟨sb, hsb, ?_⟩
    simpa using hp

theorem headD_cons_tail {α : Type} {l : List α} (h : l ≠ []) (d : α) :
    l = l.headD d :: l.tail := by
  cases l with
  | nil => exact absurd rfl h
  | cons x xs => rfl

theorem sequencedPath_ne_nil {df0 : List Bar} {pick limit : Nat}
    (hne : tradablePath df0 pick limit ≠ []) :
    sequencedPath df0 pick limit ≠ [] := by
  unfold sequencedPath
  intro h
  apply hne
  have hlen := congrArg List.length h
  rw [length_sequenceBars] at hlen
  exact List.length_eq_zero.mp hlen

theorem head_sequencedPath_bar {df0 : List Bar} {pick limit : Nat}
    (hne : tradablePath df0 pick limit ≠ []) :
    ((sequencedPath df0 pick limit).headD default).bar = buyBar df0 pick limit := by
  have hspne := sequencedPath_ne_nil hne
  rw [headD_eq_get hspne]
  unfold sequencedPath buyBar
  have h0 : 0 < (tradablePath df0 pick limit).length := List.length_pos.mpr hne
  rw [get_sequenceBars _ _ 0 h0, headD_eq_get hne]

theorem head_sequencedPath_tts {df0 : List Bar} {pick limit : Nat}
    (hne : tradablePath df0 pick limit ≠ []) :
    ((sequencedPath df0 pick limit).headD default).trading_timestamp_sequence = 0 := by
  have hspne := sequencedPath_ne_nil hne
  rw [headD_eq_get hspne]
  unfold sequencedPath
  exact tts_sequenceBars _ _ 0 _

theorem head_sequencedPath_tds {df0 : List Bar} {pick limit : Nat}
    (hne : tradablePath df0 pick limit ≠ []) :
    ((sequencedPath df0 pick limit).headD default).trading_day_sequence =
      List.indexOf (dateOnly (buyBar df0 pick limit).t)
        (targetDays (pickFiltered df0 pick) limit) := by
  have hspne := sequencedPath_ne_nil hne
  rw [headD_eq_get hspne]
  unfold sequencedPath buyBar
  have h0 : 0 < (tradablePath df0 pick limit).length := List.length_pos.mpr hne
  rw [get_sequenceBars _ _ 0 h0, headD_eq_get hne]

/-- Members of the sequenced path are determined by their sequence
number: a member with `trading_timestamp_sequence = 0` is the head. -/
theorem mem_tts_zero_eq_head {df0 : List Bar} {pick limit : Nat} {sb : SeqBar}
    (hmem : sb ∈ sequencedPath df0 pick limit)
    (h0 : sb.trading_timestamp_sequence = 0) :
    sb = (sequencedPath df0 pick limit).headD default := by
  have hne : sequencedPath df0 pick limit ≠ [] := by
    intro h
    rw [h] at hmem
    exact List.not_mem_nil _ hmem
  obtain ⟨i, hi, hget⟩ := List.mem_iff_getElem.mp hmem
  have htts : sb.trading_timestamp_sequence = i := by
    rw [← hget]
    exact indexedBy_sequencedPath df0 pick limit ⟨i, hi⟩
  have hi0 : i = 0 := by omega
  subst hi0
  rw [headD_eq_get hne, List.get_eq_getElem]
  exact hget.symm

/-- C9: when every bar of the day-filtered window lying on the first
retained day falls before 09:40 (so the morning exclusion empties day
0) while the tradable path is still non-empty, the simulation
succeeds: the entry is the first remaining bar, whose
`trading_day_sequence` is at least 1, no path bar lies on the first
retained day anymore, yet that day still occupies position 0 of the
retained day set and counts toward `trading_days_limit`. -/
theorem C9_emptied_first_day (df0 : List Bar) (pick limit : Nat)
    (rules : List ExitRule) (ts : ℚ)
    (hne : tradablePath df0 pick limit ≠ [])
    (hmorning : ∀ b ∈ dayFiltered (pickFiltered df0 pick)
        (targetDays (pickFiltered df0 pick) limit),
        dateOnly b.t = firstDayOf df0 pick limit →
        timeOfDay b.t < marketOpenCutoff) :
    ∃ o, run_simulation (some df0) pick rules limit ts = .ok o ∧
      o.buy_price = ((tradablePath df0 pick limit).headD default).openPrice ∧
      o.buy_timestamp = ((tradablePath df0 pick limit).headD default).t ∧
      1 ≤ ((sequencedPath df0 pick limit).headD default).trading_day_sequence ∧
      (∀ b ∈ tradablePath df0 pick limit,
          dateOnly b.t ≠ firstDayOf df0 pick limit) ∧
      firstDayOf df0 pick limit ∈ targetDays (pickFiltered df0 pick) limit ∧
      (targetDays (pickFiltered df0 pick) limit).length ≤ limit := by
  have hnofd : ∀ b ∈ tradablePath df0 pick limit,
      dateOnly b.t ≠ firstDayOf df0 pick limit := by
    intro b hb heq
    have hm := mem_tradablePath.mp hb
    have hday : b ∈ dayFiltered (pickFiltered df0 pick)
        (targetDays (pickFiltered df0 pick) limit) :=
      mem_dayFiltered.mpr ⟨hm.1, hm.2.1⟩
    exact hm.2.2 ⟨heq, hmorning b hday heq⟩
  have htdne : targetDays (pickFiltered df0 pick) limit ≠ [] :=
    (tradablePath_ne_nil_imp hne).2.2
  refine ⟨resolveOutcome (sequencedPath df0 pick limit)
      (buyBar df0 pick limit).openPrice (buyBar df0 pick limit).t rules limit ts,
    run_ok_iff.mpr ⟨hne, rfl⟩,
    (resolveOutcome_buy _ _ _ _ _ _).1, (resolveOutcome_buy _ _ _ _ _ _).2,
    ?_, hnofd, ?_, ?_⟩
  · rw [head_sequencedPath_tds hne]
    have hbmem : buyBar df0 pick limit ∈ tradablePath df0 pick limit :=
      headD_mem hne default
    have hd : dateOnly (buyBar df0 pick limit).t ≠ firstDayOf df0 pick limit :=
      hnofd _ hbmem
    rcases htd : targetDays (pickFiltered df0 pick) limit with _ | ⟨d, rest⟩
    · exact absurd htd htdne
    · have hfd : firstDayOf df0 pick limit = d := by
        unfold firstDayOf
        rw [htd]
        rfl
      rw [List.indexOf_cons_ne]
      · omega
      · rw [← hfd]
        intro hcontra
        exact hd (by rw [hcontra])
  · unfold firstDayOf
    exact headD_mem htdne 0
  · unfold targetDays
    simp [List.length_take_le]

/-- C10: the trailing-stop check is applied to the entry bar itself:
when the first bar of the tradable path already satisfies
`low ≤ high × (1 − ts_pct)` and that bar triggers neither the
take-profit nor the stop-loss flag, the outcome is a Trailing Stop exit
at the entry bar: sell timestamp = buy timestamp, sell price =
first bar's high × (1 − ts_pct), exit sequence number 0. -/
theorem C10_entry_bar_trailing_stop (df0 : List Bar) (pick limit : Nat)
    (rules : List ExitRule) (ts : ℚ)
    (hne : tradablePath df0 pick limit ≠ [])
    (hbr : (buyBar df0 pick limit).low ≤ (buyBar df0 pick limit).high * (1 - ts))
    (htp : is_tp_breached rules (buyBar df0 pick limit).openPrice
        ((sequencedPath df0 pick limit).headD default) = false)
    (hsl : is_sl_breached rules (buyBar df0 pick limit).openPrice
        ((sequencedPath df0 pick limit).headD default) = false) :
    ∃ o, run_simulation (some df0) pick rules limit ts = .ok o ∧
      o.trigger = .trailingStop ∧
      o.sell_timestamp = o.buy_timestamp ∧
      o.sell_price = (buyBar df0 pick limit).high * (1 - ts) ∧
      o.trading_timestamp_sequence = 0 := by
  have hspne := sequencedPath_ne_nil hne
  have hbar0 := head_sequencedPath_bar hne
  have htts0 := head_sequencedPath_tts hne
  have hscan : tsScan ts 0 (sequencedPath df0 pick limit) =
      some ((sequencedPath df0 pick limit).headD default,
        (buyBar df0 pick limit).high * (1 - ts)) := by
    rw [headD_cons_tail hspne default]
    simp only [tsScan]
    have hstep : tsStep 0 ((sequencedPath df0 pick limit).headD default) =
        (buyBar df0 pick limit).high := by
      unfold tsStep
      rw [if_pos htts0, hbar0]
    rw [hstep, if_pos (by rw [hbar0]; exact hbr)]
    rfl
  have hets : earliest_ts_of ts (sequencedPath df0 pick limit) = some 0 := by
    unfold earliest_ts_of
    rw [hscan]
    exact congrArg some htts0
  have hlt1 : seqLT (earliest_ts_of ts (sequencedPath df0 pick limit))
      (earliest_tp_of (sequencedPath df0 pick limit) rules
        (buyBar df0 pick limit).openPrice) := by
    rw [hets]
    unfold earliest_tp_of
    rcases earliestSeq_attained ((sequencedPath df0 pick limit).filter
        (is_tp_breached rules (buyBar df0 pick limit).openPrice)) with hn | ⟨sb, hmemf, heq⟩
    · rw [hn]
      exact trivial
    · rw [heq]
      have hmemsp := (List.mem_filter.mp hmemf).1
      have hflag := (List.mem_filter.mp hmemf).2
      show 0 < sb.trading_timestamp_sequence
      rcases Nat.eq_zero_or_pos sb.trading_timestamp_sequence with h0 | hpos
      · exfalso
        have := mem_tts_zero_eq_head hmemsp h0
        rw [this, htp] at hflag
        cases hflag
      · exact hpos
  have hlt2 : seqLT (earliest_ts_of ts (sequencedPath df0 pick limit))
      (earliest_sl_of (sequencedPath df0 pick limit) rules
        (buyBar df0 pick limit).openPrice) := by
    rw [hets]
    unfold earliest_sl_of
    rcases earliestSeq_attained ((sequencedPath df0 pick limit).filter
        (is_sl_breached rules (buyBar df0 pick limit).openPrice)) with hn | ⟨sb, hmemf, heq⟩
    · rw [hn]
      exact trivial
    · rw [heq]
      have hmemsp := (List.mem_filter.mp hmemf).1
      have hflag := (List.mem_filter.mp hmemf).2
      show 0 < sb.trading_timestamp_sequence
      rcases Nat.eq_zero_or_pos sb.trading_timestamp_sequence with h0 | hpos
      · exfalso
        have := mem_tts_zero_eq_head hmemsp h0
        rw [this, hsl] at hflag
        cases hflag
      · exact hpos
  have hres := resolveOutcome_eq_ts (sequencedPath df0 pick limit)
    (buyBar df0 pick limit).openPrice (buyBar df0 pick limit).t
    rules limit ts hlt1 hlt2
  have hexit : tsExitOf ts (sequencedPath df0 pick limit) =
      ((sequencedPath df0 pick limit).headD default,
        (buyBar df0 pick limit).high * (1 - ts)) := by
    unfold tsExitOf
    rw [hscan]
    rfl
  refine ⟨resolveOutcome (sequencedPath df0 pick limit)
      (buyBar df0 pick limit).openPrice (buyBar df0 pick limit).t rules limit ts,
    run_ok_iff.mpr ⟨hne, rfl⟩, ?_, ?_, ?_, ?_⟩
  · rw [hres, trigger_mkOutcome]
  · rw [hres, sell_timestamp_mkOutcome, buy_timestamp_mkOutcome, hexit]
    exact congrArg Bar.t hbar0
  · rw [hres, sell_price_mkOutcome, hexit]
  · rw [hres, tts_mkOutcome, hexit]
    exact htts0

theorem pickFiltered_ne_nil_imp {df0 : List Bar} {pick : Nat}
    (h : pickFiltered df0 pick ≠ []) : df0 ≠ [] := by
  intro h0
  subst h0
  exact h rfl

theorem targetDays_ne_nil_imp {df : List Bar} {limit : Nat}
    (h : targetDays df limit ≠ []) : df ≠ [] := by
  obtain ⟨d, hd⟩ := List.exists_mem_of_ne_nil _ h
  obtain ⟨b, hb, -⟩ := mem_targetDays_imp hd
  intro h0
  rw [h0] at hb
  exact List.not_mem_nil _ hb

/-- C8: the simulator always returns a result value (it is a total
function of its inputs — no exception escapes); every error result
carries one of the three specific data-shortage messages or a message
prefixed "Logic error: "; and each data-shortage condition maps to its
own distinct message: absent/empty provider data, empty path after the
pick-date filter, the day list emptied by a zero day limit (the
`target_days[0]` IndexError caught by the try/except), and an empty
path after the morning exclusion. -/
theorem C8_error_handling (df? : Option (List Bar)) (pick : Nat)
    (rules : List ExitRule) (limit : Nat) (ts : ℚ) :
    ((∃ m, run_simulation df? pick rules limit ts = .err m) ∨
      (∃ o, run_simulation df? pick rules limit ts = .ok o)) ∧
    (∀ m, run_simulation df? pick rules limit ts = .err m →
        m = "No OHLC data returned from Polygon" ∨
        m = "No data available after the pick date" ∨
        m = "Insufficient data after morning exclusion" ∨
        ∃ s, m = "Logic error: " ++ s) ∧
    (df? = none ∨ df? = some [] →
        run_simulation df? pick rules limit ts =
          .err "No OHLC data returned from Polygon") ∧
    (∀ df0, df? = some df0 → df0 ≠ [] → pickFiltered df0 pick = [] →
        run_simulation df? pick rules limit ts =
          .err "No data available after the pick date") ∧
    (∀ df0, df? = some df0 → pickFiltered df0 pick ≠ [] →
        targetDays (pickFiltered df0 pick) limit = [] →
        run_simulation df? pick rules limit ts =
          .err "Logic error: list index out of range") ∧
    (∀ df0, df? = some df0 → targetDays (pickFiltered df0 pick) limit ≠ [] →
        tradablePath df0 pick limit = [] →
        run_simulation df? pick rules limit ts =
          .err "Insufficient data after morning exclusion") := by
  refine ⟨?_, ?_, ?_, ?_, ?_, ?_⟩
  · cases hr : run_simulation df? pick rules limit ts with
    | err m => exact Or.inl ⟨m, rfl⟩
    | ok o => exact Or.inr ⟨o, rfl⟩
  · intro m h
    rcases run_err_cases h with h1 | h2 | h3 | h4
    · exact Or.inl h1
    · exact Or.inr (Or.inl h2)
    · exact Or.inr (Or.inr (Or.inl h3))
    · exact Or.inr (Or.inr (Or.inr ⟨"list index out of range", by rw [h4]; rfl⟩))
  · rintro (rfl | rfl) <;> rfl
  · rintro df0 rfl hne hpf
    simp only [run_simulation]
    rw [if_neg (by simpa [List.isEmpty_iff] using hne),
      if_pos (by simpa [List.isEmpty_iff] using hpf)]
  · rintro df0 rfl hpf htd
    simp only [run_simulation]
    rw [if_neg (by simpa [List.isEmpty_iff] using pickFiltered_ne_nil_imp hpf),
      if_neg (by simpa [List.isEmpty_iff] using hpf),
      if_pos (by simpa [List.isEmpty_iff] using htd)]
  · rintro df0 rfl htd hpath
    have hpf : pickFiltered df0 pick ≠ [] := targetDays_ne_nil_imp htd
    simp only [run_simulation]
    rw [if_neg (by simpa [List.isEmpty_iff] using pickFiltered_ne_nil_imp hpf),
      if_neg (by simpa [List.isEmpty_iff] using hpf),
      if_neg (by simpa [List.isEmpty_iff] using htd),
      if_pos (by simpa [List.isEmpty_iff] using hpath)]

/-! Concrete evaluations: counterexamples and witnesses.  The kernel
evaluates rational arithmetic only when the arithmetic operations on
`Rat` are reducible, so they are made reducible locally. -/

section ConcreteEvaluations

attribute [local semireducible] Rat.mul Rat.add Rat.sub Rat.inv Rat.ofScientific

/-- C3 counterexample: two bars — day 100 at 09:30 (before the 09:40
cutoff) and day 101 at 09:35.  The morning exclusion empties day 100,
the first retained trading day, yet the simulation succeeds and takes
its entry from the day-101 bar at 09:35 — a bar that is not at/after
09:40 on any day, let alone the earliest retained day (day 100).  So
the buy price/timestamp is not "the opening price and timestamp of the
first bar at/after 09:40 on the earliest retained trading day". -/
theorem C3_counterexample :
    run_simulation (some [⟨144570, 10, 10, 10, 10⟩, ⟨146015, 20, 20, 20, 20⟩])
        99 [] 2 (8/100) =
      .ok ⟨20, 20, 0, 146015, 146015, 0, 1, 0, .endOfHolding⟩ ∧
    firstDayOf [⟨144570, 10, 10, 10, 10⟩, ⟨146015, 20, 20, 20, 20⟩] 99 2 = 100 ∧
    dateOnly 146015 = 101 ∧
    timeOfDay 146015 < marketOpenCutoff ∧
    tradablePath [⟨144570, 10, 10, 10, 10⟩, ⟨146015, 20, 20, 20, 20⟩] 99 2 =
      [⟨146015, 20, 20, 20, 20⟩] := by
  refine ⟨by decide, by decide, by decide, by decide, by decide⟩

/-- C4 counterexample: two bars on a single trading day (day 100) with
`trading_days_limit = 5` and no breach of any kind.  The exact exit bar
(`trading_day_sequence = 4`, `trading_interval_sequence = 0`) is absent,
so the code falls back to the path's **last** bar and sells at its open
(11) — not at the opening price of the last retained day's first bar
(10).  The claim's sell-price clause fails in the fallback case. -/
theorem C4_counterexample :
    run_simulation (some [⟨144580, 10, 10, 10, 10⟩, ⟨144585, 11, 10, 10, 10⟩])
        99 [] 5 (8/100) =
      .ok ⟨10, 11, 10, 144580, 144585, 1, 0, 1, .endOfHolding⟩ ∧
    targetDays (pickFiltered [⟨144580, 10, 10, 10, 10⟩, ⟨144585, 11, 10, 10, 10⟩] 99)
        5 = [100] ∧
    (sequencedPath [⟨144580, 10, 10, 10, 10⟩, ⟨144585, 11, 10, 10, 10⟩] 99 5).filter
        (fun sb => decide (sb.trading_day_sequence = 0) &&
          decide (sb.trading_interval_sequence = 0)) =
      [⟨⟨144580, 10, 10, 10, 10⟩, 0, 0, 0⟩] ∧
    (11 : ℚ) ≠ (10 : ℚ) := by
  refine ⟨by decide, by decide, by decide, by decide⟩

/-- Witness for C1 at a concrete tie: on the second bar both take-profit
(high 12 ≥ 10 × 1.15) and trailing-stop (low 10 ≤ 12 × 0.92) fire at
sequence number 1, and Take Profit is reported. -/
theorem C1_trigger_race_witness :
    earliest_tp_of
        (sequencedPath [⟨144580, 10, 10, 10, 10⟩, ⟨144585, 10, 12, 10, 10⟩] 99 10)
        [⟨115/100, 9/10, 0, 9⟩]
        (buyBar [⟨144580, 10, 10, 10, 10⟩, ⟨144585, 10, 12, 10, 10⟩] 99 10).openPrice
      ≠ none ∧
    seqLE (earliest_tp_of
        (sequencedPath [⟨144580, 10, 10, 10, 10⟩, ⟨144585, 10, 12, 10, 10⟩] 99 10)
        [⟨115/100, 9/10, 0, 9⟩]
        (buyBar [⟨144580, 10, 10, 10, 10⟩, ⟨144585, 10, 12, 10, 10⟩] 99 10).openPrice)
      (earliest_sl_of
        (sequencedPath [⟨144580, 10, 10, 10, 10⟩, ⟨144585, 10, 12, 10, 10⟩] 99 10)
        [⟨115/100, 9/10, 0, 9⟩]
        (buyBar [⟨144580, 10, 10, 10, 10⟩, ⟨144585, 10, 12, 10, 10⟩] 99 10).openPrice) ∧
    seqLE (earliest_tp_of
        (sequencedPath [⟨144580, 10, 10, 10, 10⟩, ⟨144585, 10, 12, 10, 10⟩] 99 10)
        [⟨115/100, 9/10, 0, 9⟩]
        (buyBar [⟨144580, 10, 10, 10, 10⟩, ⟨144585, 10, 12, 10, 10⟩] 99 10).openPrice)
      (earliest_ts_of (8/100)
        (sequencedPath [⟨144580, 10, 10, 10, 10⟩, ⟨144585, 10, 12, 10, 10⟩] 99 10)) :=
  (@C1_trigger_race [⟨144580, 10, 10, 10, 10⟩, ⟨144585, 10, 12, 10, 10⟩] 99
    [⟨115/100, 9/10, 0, 9⟩] 10 (8/100)
    ⟨10, 12, 20, 144580, 144585, 1, 0, 1, .takeProfit⟩ (by decide)).1.mp rfl

/-- Witness for C2 on a one-bar path whose entry bar breaches the
trailing stop: the scan reports it and the sell price is the
trigger-sell price 10 × 0.92 = 9.2. -/
theorem C2_trailing_stop_breach_witness :
    ∃ sb p, tsScan (8/100) 0 (sequencedPath [⟨144580, 10, 10, 9, 10⟩] 99 1) =
        some (sb, p) ∧
      (⟨10, 92/10, -8, 144580, 144580, 0, 0, 0, .trailingStop⟩ : Outcome).sell_price
        = p ∧
      (⟨10, 92/10, -8, 144580, 144580, 0, 0, 0, .trailingStop⟩ : Outcome).sell_timestamp
        = sb.bar.t :=
  (C2_trailing_stop_breach [⟨144580, 10, 10, 9, 10⟩] 99 1 (8/100)).2.2 []
    ⟨10, 92/10, -8, 144580, 144580, 0, 0, 0, .trailingStop⟩ (by decide) rfl

/-- Witness for C3 on a concrete successful run. -/
theorem C3_entry_determinism_witness :
    (⟨10, 10, 0, 144580, 144580, 0, 0, 0, .endOfHolding⟩ : Outcome).buy_price =
      ((tradablePath [⟨144580, 10, 10, 10, 10⟩] 99 1).headD default).openPrice ∧
    (⟨10, 10, 0, 144580, 144580, 0, 0, 0, .endOfHolding⟩ : Outcome).buy_timestamp =
      ((tradablePath [⟨144580, 10, 10, 10, 10⟩] 99 1).headD default).t :=
  (C3_entry_determinism [⟨144580, 10, 10, 10, 10⟩] 99 1).1 [] (8/100)
    ⟨10, 10, 0, 144580, 144580, 0, 0, 0, .endOfHolding⟩ (by decide)

/-- Witness for C4 on the fallback input of the counterexample. -/
theorem C4_time_fallback_witness :
    (⟨10, 11, 10, 144580, 144585, 1, 0, 1, .endOfHolding⟩ : Outcome).trigger =
        .endOfHolding ∧
    (⟨10, 11, 10, 144580, 144585, 1, 0, 1, .endOfHolding⟩ : Outcome).sell_price =
      (eohExitRow (sequencedPath
        [⟨144580, 10, 10, 10, 10⟩, ⟨144585, 11, 10, 10, 10⟩] 99 5) 5).bar.openPrice ∧
    (⟨10, 11, 10, 144580, 144585, 1, 0, 1, .endOfHolding⟩ : Outcome).sell_timestamp =
      (eohExitRow (sequencedPath
        [⟨144580, 10, 10, 10, 10⟩, ⟨144585, 11, 10, 10, 10⟩] 99 5) 5).bar.t ∧
    ((∃ sb ∈ sequencedPath [⟨144580, 10, 10, 10, 10⟩, ⟨144585, 11, 10, 10, 10⟩] 99 5,
          sb.trading_day_sequence = 5 - 1 ∧ sb.trading_interval_sequence = 0) →
        eohExitRow (sequencedPath
            [⟨144580, 10, 10, 10, 10⟩, ⟨144585, 11, 10, 10, 10⟩] 99 5) 5 ∈
          sequencedPath [⟨144580, 10, 10, 10, 10⟩, ⟨144585, 11, 10, 10, 10⟩] 99 5 ∧
        (eohExitRow (sequencedPath
            [⟨144580, 10, 10, 10, 10⟩, ⟨144585, 11, 10, 10, 10⟩] 99 5) 5).trading_day_sequence
          = 5 - 1 ∧
        (eohExitRow (sequencedPath
            [⟨144580, 10, 10, 10, 10⟩, ⟨144585, 11, 10, 10, 10⟩] 99 5) 5).trading_interval_sequence
          = 0) ∧
    ((¬∃ sb ∈ sequencedPath [⟨144580, 10, 10, 10, 10⟩, ⟨144585, 11, 10, 10, 10⟩] 99 5,
          sb.trading_day_sequence = 5 - 1 ∧ sb.trading_interval_sequence = 0) →
        eohExitRow (sequencedPath
            [⟨144580, 10, 10, 10, 10⟩, ⟨144585, 11, 10, 10, 10⟩] 99 5) 5 =
          (sequencedPath
            [⟨144580, 10, 10, 10, 10⟩, ⟨144585, 11, 10, 10, 10⟩] 99 5).getLastD default) :=
  C4_time_fallback [⟨144580, 10, 10, 10, 10⟩, ⟨144585, 11, 10, 10, 10⟩] 99 5 [] (8/100)
    ⟨10, 11, 10, 144580, 144585, 1, 0, 1, .endOfHolding⟩
    (by decide) (by decide) (by decide) (by decide)

/-- Witness for C5 at position 0 of a one-bar path. -/
theorem C5_running_maximum_witness :
    ∃ sb ∈ sequencedPath [⟨144580, 10, 10, 10, 10⟩] 99 1,
      sb.trading_timestamp_sequence ≤ 0 ∧
      accFrom 0 (sequencedPath [⟨144580, 10, 10, 10, 10⟩] 99 1) 1 = sb.bar.high :=
  (C5_running_maximum [⟨144580, 10, 10, 10, 10⟩] 99 1 0 (by decide)).2.2

/-- Witness for C6 on a concrete sequenced bar. -/
theorem C6_day_limit_bound_witness :
    dateOnly (⟨⟨144580, 10, 10, 10, 10⟩, 0, 0, 0⟩ : SeqBar).bar.t ∈
      targetDays (pickFiltered [⟨144580, 10, 10, 10, 10⟩] 99) 1 ∧
    (⟨⟨144580, 10, 10, 10, 10⟩, 0, 0, 0⟩ : SeqBar).trading_day_sequence ≤ 1 - 1 :=
  (C6_day_limit_bound [⟨144580, 10, 10, 10, 10⟩] 99 1).2.2.2.2
    ⟨⟨144580, 10, 10, 10, 10⟩, 0, 0, 0⟩ (by decide)

/-- Witness for C7 on a concrete path bar. -/
theorem C7_pick_and_morning_exclusion_witness :
    99 < dateOnly (⟨144580, 10, 10, 10, 10⟩ : Bar).t :=
  (C7_pick_and_morning_exclusion [⟨144580, 10, 10, 10, 10⟩] 99 1).1
    ⟨144580, 10, 10, 10, 10⟩ (by decide)

/-- Witness for C8: an absent provider result yields the no-data error. -/
theorem C8_error_handling_witness :
    run_simulation none 99 [] 10 (8/100) =
      .err "No OHLC data returned from Polygon" :=
  (C8_error_handling none 99 [] 10 (8/100)).2.2.1 (Or.inl rfl)

/-- Witness for C9 on the two-bar input whose first retained day is
emptied by the morning exclusion. -/
theorem C9_emptied_first_day_witness :
    ∃ o, run_simulation (some [⟨144570, 10, 10, 10, 10⟩, ⟨146015, 20, 20, 20, 20⟩])
          99 [] 2 (8/100) = .ok o ∧
      o.buy_price = ((tradablePath
        [⟨144570, 10, 10, 10, 10⟩, ⟨146015, 20, 20, 20, 20⟩] 99 2).headD
          default).openPrice ∧
      o.buy_timestamp = ((tradablePath
        [⟨144570, 10, 10, 10, 10⟩, ⟨146015, 20, 20, 20, 20⟩] 99 2).headD default).t ∧
      1 ≤ ((sequencedPath
        [⟨144570, 10, 10, 10, 10⟩, ⟨146015, 20, 20, 20, 20⟩] 99 2).headD
          default).trading_day_sequence ∧
      (∀ b ∈ tradablePath [⟨144570, 10, 10, 10, 10⟩, ⟨146015, 20, 20, 20, 20⟩] 99 2,
          dateOnly b.t ≠
            firstDayOf [⟨144570, 10, 10, 10, 10⟩, ⟨146015, 20, 20, 20, 20⟩] 99 2) ∧
      firstDayOf [⟨144570, 10, 10, 10, 10⟩, ⟨146015, 20, 20, 20, 20⟩] 99 2 ∈
        targetDays (pickFiltered
          [⟨144570, 10, 10, 10, 10⟩, ⟨146015, 20, 20, 20, 20⟩] 99) 2 ∧
      (targetDays (pickFiltered
          [⟨144570, 10, 10, 10, 10⟩, ⟨146015, 20, 20, 20, 20⟩] 99) 2).length ≤ 2 :=
  C9_emptied_first_day [⟨144570, 10, 10, 10, 10⟩, ⟨146015, 20, 20, 20, 20⟩] 99 2
    [] (8/100) (by decide) (by decide)

/-- Witness for C10 on a one-bar path whose entry bar breaches the
trailing stop. -/
theorem C10_entry_bar_trailing_stop_witness :
    ∃ o, run_simulation (some [⟨144580, 10, 10, 9, 10⟩]) 99 [] 1 (8/100) = .ok o ∧
      o.trigger = .trailingStop ∧
      o.sell_timestamp = o.buy_timestamp ∧
      o.sell_price = (buyBar [⟨144580, 10, 10, 9, 10⟩] 99 1).high * (1 - 8/100) ∧
      o.trading_timestamp_sequence = 0 :=
  C10_entry_bar_trailing_stop [⟨144580, 10, 10, 9, 10⟩] 99 1 [] (8/100)
    (by decide) (by decide) (by decide) (by decide)

end ConcreteEvaluations

end TpSl
